import Mathlib

/-!
Shallow embedding of the control-plane-integration core of the
linkerd2-proxy repository (src/app/identity.rs, src/proxy/http/profiles.rs,
src/telemetry/router.rs), with theorems checking the natural-language
specification against the code.

Conventions:
* `SystemTime` instants and `Duration`s are modelled as `Nat` nanoseconds
  (Rust `Duration` arithmetic — `d * 7`, `d / 10` — is exact multiplication
  and floor division at nanosecond granularity).
* `Arc<T>` is modelled as a pair of an allocation identity and a value, so
  that `Arc::ptr_eq` and pointer hashing are expressible.
* Fallible or external effects (RPC polls, timer polls, token loading,
  trust-anchor verification, watch stores) are supplied to the daemon's
  step function as explicit inputs.
-/

namespace Linkerd

/-! ## Identity daemon: `src/app/identity.rs` -/

/-- The refresh-relevant part of `Config` (identity.rs L14-23). -/
structure Config where
  min_refresh : Nat
  max_refresh : Nat
deriving Repr, DecidableEq

/-- Rust `SystemTime::duration_since`: `Ok(expiry - now)` when `now ≤ expiry`,
`Err` (modelled `none`) when `expiry` is strictly earlier than `now`. -/
def durationSince (expiry now : Nat) : Option Nat :=
  if now ≤ expiry then some (expiry - now) else none

/-- Rust `Config::refresh` (identity.rs L82-97), returning the `Duration` armed
into the `Delay` (the deadline is `now + result`). -/
def Config.refresh (c : Config) (expiry now : Nat) : Nat :=
  match (durationSince expiry now).map (fun d => d * 7 / 10) with
  | none => c.min_refresh
  | some lifetime =>
    if lifetime < c.min_refresh then c.min_refresh
    else if c.max_refresh < lifetime then c.max_refresh
    else lifetime

/-- The payload of `api::CertifyResponse` after gRPC decoding.  A
`valid_until` that is absent, or not convertible to a `SystemTime`, is
modelled as `none` (identity.rs L134). -/
structure CertifyResponse where
  leaf_certificate : List Nat
  intermediate_certificates : List (List Nat)
  valid_until : Option Nat
deriving Repr, DecidableEq

/-- Result of polling the in-flight `Certify` RPC future. -/
inductive RpcPoll
  | notReady
  | ok (rsp : CertifyResponse)
  | err
deriving Repr, DecidableEq

/-- Result of polling the `Delay`.  Only `Ok(Async::NotReady)` suspends the
daemon (identity.rs L111); a ready or errored timer both proceed. -/
inductive DelayPoll
  | notReady
  | elapsed
  | timerErr
deriving Repr, DecidableEq

/-- The daemon's `Inner` state (identity.rs L45-53).  The pending RPC future
itself is external; the waiting deadline is an absolute instant. -/
inductive InnerState
  | waiting (deadline : Nat)
  | shouldRefresh
  | pending
deriving Repr, DecidableEq

/-- The daemon's mutable state: stored expiry and the watch's published
value.  The published `CrtKey` is identified by its expiry instant. -/
structure DaemonState where
  expiry : Nat
  crt_key : Option Nat
  inner : InnerState
deriving Repr, DecidableEq

/-- Rust `new` (identity.rs L55-73): initial state is `ShouldRefresh`, expiry is
`UNIX_EPOCH` (instant 0), the watch starts at `None`. -/
def DaemonState.init : DaemonState :=
  { expiry := 0, crt_key := none, inner := .shouldRefresh }

/-- External inputs consumed by one iteration of the `poll` loop. -/
structure StepEnv where
  now : Nat
  delay : DelayPoll
  token : Option (List Nat)
  rpc : RpcPoll
  certifyOk : Bool
  hasObservers : Bool
deriving Repr, DecidableEq

/-- How one loop iteration of `Daemon::poll` ends. -/
inductive Outcome
  | notReady
  | done
  | looped
  | panicked
deriving Repr, DecidableEq

/-- One iteration of the `loop` in `Daemon::poll` (identity.rs L107-174).
`token = none` models `TokenSource::load` failing, on which the code panics
via `.expect("FIXME")` (identity.rs L119).  `certifyOk` is the result of
`trust_anchors.certify`; `hasObservers = false` makes `crt_key.store`
return `Err` (identity.rs L153). -/
def Daemon.step (c : Config) (e : StepEnv) (s : DaemonState) :
    Outcome × DaemonState :=
  match s.inner with
  | .waiting _ =>
    match e.delay with
    | .notReady => (.notReady, s)
    | .elapsed => (.looped, { s with inner := .shouldRefresh })
    | .timerErr => (.looped, { s with inner := .shouldRefresh })
  | .shouldRefresh =>
    match e.token with
    | none => (.panicked, s)
    | some _ => (.looped, { s with inner := .pending })
  | .pending =>
    match e.rpc with
    | .notReady => (.notReady, s)
    | .err =>
      (.looped, { s with inner := .waiting (e.now + c.refresh s.expiry e.now) })
    | .ok rsp =>
      match rsp.valid_until with
      | none =>
        (.looped, { s with inner := .waiting (e.now + c.refresh s.expiry e.now) })
      | some expiry =>
        if e.certifyOk then
          if e.hasObservers then
            (.looped, { expiry := expiry, crt_key := some expiry,
                        inner := .waiting (e.now + c.refresh expiry e.now) })
          else
            (.done, s)
        else
          (.looped, { s with inner := .waiting (e.now + c.refresh s.expiry e.now) })

/-! ## HTTP profiles: `src/proxy/http/profiles.rs` -/

/-- A compiled regular expression, abstracted to its matching predicate
(`Regex::is_match` tests whether the pattern matches somewhere in the
input). -/
structure Regex where
  test : String → Bool

/-- The request URI: `uri().path()` never includes the query string. -/
structure Uri where
  path : String
  query : Option String
deriving Repr, DecidableEq

/-- An `http::Request`, reduced to the fields `RequestMatch` inspects. -/
structure Request where
  method : String
  uri : Uri
deriving Repr, DecidableEq

/-- Rust `RequestMatch` (profiles.rs L53-59). -/
inductive RequestMatch
  | All (ms : List RequestMatch)
  | Any (ms : List RequestMatch)
  | Not (m : RequestMatch)
  | Path (re : Regex)
  | Method (method : String)

/-- Rust `RequestMatch::is_match` (profiles.rs L138-146). -/
def RequestMatch.is_match : RequestMatch → Request → Bool
  | .Method method, req => req.method == method
  | .Path re, req => re.test req.uri.path
  | .Not m, req => !(m.is_match req)
  | .All ms, req => ms.attach.all (fun x => x.1.is_match req)
  | .Any ms, req => ms.attach.any (fun x => x.1.is_match req)
termination_by m _ => sizeOf m
decreasing_by
  all_goals simp_wf
  all_goals first
    | omega
    | exact List.sizeOf_lt_of_mem x.2
    | exact Nat.lt_succ_of_lt (List.sizeOf_lt_of_mem x.2)
    | exact Nat.lt_add_left 1 (List.sizeOf_lt_of_mem x.2)

/-! ### Routes and pointer-identity equality -/

/-- Allocation-identity model of `Arc<T>`: `id` is the address of the
allocation, `val` its contents.  `Arc::clone` copies both fields; a fresh
allocation gets a fresh `id`. -/
structure Ptr (α : Type) where
  id : Nat
  val : α

/-- Rust `Arc::ptr_eq`. -/
def Ptr.ptr_eq {α : Type} (a b : Ptr α) : Bool := a.id == b.id

/-- Rust `ResponseMatch` (profiles.rs L71-79). -/
inductive ResponseMatch
  | All (ms : List ResponseMatch)
  | Any (ms : List ResponseMatch)
  | Not (m : ResponseMatch)
  | Status (min max : Nat)

/-- Rust `ResponseClass` (profiles.rs L62-65). -/
structure ResponseClass where
  is_failure : Bool
  match_ : ResponseMatch

/-- Rust `Labels` (profiles.rs L87): `Arc<IndexMap<String, String>>`. -/
structure Labels where
  arc : Ptr (List (String × String))

/-- Rust `ResponseClasses` (profiles.rs L68): `Arc<Vec<ResponseClass>>`. -/
structure ResponseClasses where
  arc : Ptr (List ResponseClass)

/-- Rust `Retries` (profiles.rs L82-84): `Arc<Budget>`, the budget opaque. -/
structure Retries where
  budget : Ptr Nat

/-- Rust `Route` (profiles.rs L45-50); `timeout` in nanoseconds. -/
structure Route where
  labels : Labels
  response_classes : ResponseClasses
  retries : Option Retries
  timeout : Option Nat

/-- Rust `PartialEq for Labels` (profiles.rs L234-238): `Arc::ptr_eq`. -/
def Labels.eq (a b : Labels) : Bool := a.arc.ptr_eq b.arc

/-- Rust `PartialEq for ResponseClasses` (profiles.rs L175-179). -/
def ResponseClasses.eq (a b : ResponseClasses) : Bool := a.arc.ptr_eq b.arc

/-- Rust `PartialEq for Retries` (profiles.rs L218-222). -/
def Retries.eq (a b : Retries) : Bool := a.budget.ptr_eq b.budget

/-- The derived `PartialEq for Route` (profiles.rs L44): fieldwise, with
`Option` lifting and a structural comparison on `timeout`. -/
def Route.eq (a b : Route) : Bool :=
  a.labels.eq b.labels
  && a.response_classes.eq b.response_classes
  && (match a.retries, b.retries with
      | none, none => true
      | some x, some y => x.eq y
      | _, _ => false)
  && a.timeout == b.timeout

/-- Rust `Hash for Labels` (profiles.rs L242-246): `write_usize` of the `Arc`
pointer. -/
def Labels.hashU (l : Labels) : Nat := l.arc.id

/-- Rust `Hash for ResponseClasses` (profiles.rs L183-187). -/
def ResponseClasses.hashU (c : ResponseClasses) : Nat := c.arc.id

/-- Rust `Hash for Retries` (profiles.rs L226-230). -/
def Retries.hashU (r : Retries) : Nat := r.budget.id

/-- The derived `Hash for Route`: the stream of words the fields feed to
the hasher, in declaration order (`Option` writes a discriminant and then
the payload's words). -/
def Route.hashStream (r : Route) : List Nat :=
  [r.labels.hashU, r.response_classes.hashU]
  ++ (match r.retries with | none => [0] | some x => [1, x.hashU])
  ++ (match r.timeout with | none => [0] | some t => [1, t])

/-- The derived `Clone for Route`: every `Arc` field is cloned by sharing
its allocation, so the clone carries the same allocation identities. -/
def Route.clone (r : Route) : Route :=
  { labels := ⟨⟨r.labels.arc.id, r.labels.arc.val⟩⟩,
    response_classes :=
      ⟨⟨r.response_classes.arc.id, r.response_classes.arc.val⟩⟩,
    retries := r.retries.map (fun x => ⟨⟨x.budget.id, x.budget.val⟩⟩),
    timeout := r.timeout }

/-- A route laid out as by `Route::new` (profiles.rs L92-108) with one
label and no classes: `labelsId` and `classesId` are the two fresh `Arc`
allocations it performs. -/
def routeAlloc (labelsId classesId : Nat) : Route :=
  { labels := ⟨⟨labelsId, [("svc", "a")]⟩⟩,
    response_classes := ⟨⟨classesId, []⟩⟩,
    retries := none,
    timeout := none }

/-! ### The profile router: `mod router` (profiles.rs L264-552) -/

/-- Rust `Routes` (profiles.rs L19). -/
abbrev Routes := List (RequestMatch × Route)

/-- Rust `Recognize` (profiles.rs L342-346). -/
structure Recognize (T : Type) where
  target : T
  routes : Routes
  default_route : Route

/-- The `for` loop of `Recognize::recognize` (profiles.rs L356-361): the
first condition matching the request returns its route; falling out of the
loop returns the default route.  `withRoute` is the target type's
`WithRoute::with_route`. -/
def recognizeGo {T O : Type} (withRoute : T → Route → O) (t : T)
    (req : Request) : Routes → Route → Option O
  | [], d => some (withRoute t d)
  | (condition, route) :: rest, d =>
    if condition.is_match req then some (withRoute t route)
    else recognizeGo withRoute t req rest d

/-- Rust `Recognize::recognize` (profiles.rs L355-365). -/
def Recognize.recognize {T O : Type} (withRoute : T → Route → O)
    (r : Recognize T) (req : Request) : Option O :=
  recognizeGo withRoute r.target req r.routes r.default_route

/-- Modelled from the spec: the external `linkerd2_router::Router`
(`rt::Router`, a dependency crate whose sources are not in this
repository).  Per spec §4.3 "Routing cache", it pairs the recognizer with
a bounded map from specialized target to inner-service instance of the
given capacity and idle-eviction age, starting empty; the stack's `make`
is the pure function `stack`. -/
structure RtRouter (T O Svc : Type) where
  recognize : Recognize T
  stack : O → Svc
  capacity : Nat
  max_idle_age : Nat
  cache : List (O × Svc)

/-- Rust `rt::Router::new(recognize, stack, capacity, max_idle_age)`: fresh,
empty map. -/
def RtRouter.new {T O Svc : Type} (rec : Recognize T) (stack : O → Svc)
    (capacity max_idle_age : Nat) : RtRouter T O Svc :=
  { recognize := rec, stack := stack, capacity := capacity,
    max_idle_age := max_idle_age, cache := [] }

/-- Rust `Service` (profiles.rs L326-338).  The route stream is modelled by the
list of emissions it will yield before pending; `none` when the target was
not eligible for route discovery. -/
structure ProfileService (T O Svc : Type) where
  target : T
  stack : O → Svc
  route_stream : Option (List Routes)
  router : RtRouter T O Svc
  default_route : Route

/-- Rust `Stack::make` (profiles.rs L435-475), the discovery decision
(`get_destination`, suffix filter, `get_routes`) abstracted into the
`route_stream` argument: the router starts with an empty route table,
capacity 1 ("only need 1 for default_route at first"), idle age 0. -/
def Stack.make {T O Svc : Type} (stack : O → Svc) (target : T)
    (default_route : Route) (route_stream : Option (List Routes)) :
    ProfileService T O Svc :=
  { target := target, stack := stack, route_stream := route_stream,
    router := RtRouter.new ⟨target, [], default_route⟩ stack 1 0,
    default_route := default_route }

/-- Rust `Service::update_routes` (profiles.rs L504-517): a brand-new router
over the new table, with `slots = routes.len() + 1`. -/
def ProfileService.update_routes {T O Svc : Type}
    (s : ProfileService T O Svc) (routes : Routes) :
    ProfileService T O Svc :=
  { s with
    router := RtRouter.new ⟨s.target, routes, s.default_route⟩ s.stack
      (routes.length + 1) 0 }

/-- Rust `Service::poll_ready` (profiles.rs L540-546): drain every update the
route stream has ready (`while let Some(Async::Ready(Some(routes)))`),
applying `update_routes` to each, then report `Ready(())` — the returned
flag — unconditionally; no inner service is consulted.  The drained
stream has no further ready emissions. -/
def ProfileService.poll_ready {T O Svc : Type}
    (s : ProfileService T O Svc) : ProfileService T O Svc × Bool :=
  match s.route_stream with
  | none => (s, true)
  | some updates =>
    (updates.foldl (fun st r => st.update_routes r)
      { s with route_stream := some [] }, true)

/-- Modelled from the spec: dispatch through the external `rt::Router` —
recognize the request, reuse the cached specialized service for an equal
target, else materialize one from the stack and cache it. -/
def RtRouter.call {T O Svc : Type} [DecidableEq O]
    (withRoute : T → Route → O) (r : RtRouter T O Svc) (req : Request) :
    Option Svc × RtRouter T O Svc :=
  match r.recognize.recognize withRoute req with
  | none => (none, r)
  | some tgt =>
    match r.cache.find? (fun p => decide (p.1 = tgt)) with
    | some p => (some p.2, r)
    | none =>
      (some (r.stack tgt), { r with cache := (tgt, r.stack tgt) :: r.cache })

/-- A dispatch sequence through the router, collecting the service used
for each request. -/
def RtRouter.callMany {T O Svc : Type} [DecidableEq O]
    (withRoute : T → Route → O) (r : RtRouter T O Svc) :
    List Request → List (Option Svc) × RtRouter T O Svc
  | [] => ([], r)
  | req :: rest =>
    let c := r.call withRoute req
    let rest2 := c.2.callMany withRoute rest
    (c.1 :: rest2.1, rest2.2)

/-- A concrete service over trivial target and service types, with two
route-table emissions ready on its stream. -/
def wService : ProfileService Unit Nat Nat :=
  { target := (), stack := fun o => o,
    route_stream := some [[], [(RequestMatch.All [], routeAlloc 0 0)]],
    router := RtRouter.new ⟨(), [], routeAlloc 0 0⟩ (fun o => o) 1 0,
    default_route := routeAlloc 0 0 }

/-! ## Router telemetry: `src/telemetry/router.rs` -/

/-- Rust `ErrorKind` (router.rs L44-50). -/
inductive ErrorKind
  | Route
  | Capacity
  | NotRecognized
  | Inner
deriving Repr, DecidableEq

/-- Rust `ErrorLabels` (router.rs L52-56), the `Direction` reduced to a flag. -/
structure ErrorLabels where
  outbound : Bool
  kind : ErrorKind
deriving Repr, DecidableEq

/-- Rust `Weak::upgrade`: yields the referent while at least one strong
reference is alive, and fails once every strong reference has been
dropped. -/
def weakUpgrade {α : Type} (strongCount : Nat) (v : α) : Option α :=
  if strongCount = 0 then none else some v

/-- A `Report` (router.rs L30-33) as `fmt` observes it: the gauge value
cloned from the `Sensors`, the shared error-total table the `Weak` points
at, the number of strong references to that table still alive (the
originating `Sensors` plus every live `ErrorSensor` clone — `report()`
itself only downgrades, router.rs L100), and whether the table's mutex is
unpoisoned. -/
structure Report where
  active_destination_queries : Nat
  error_total : List (ErrorLabels × Nat)
  errorStrong : Nat
  lockOk : Bool

/-- A section of the Prometheus text that `Report`'s `Display` writes. -/
inductive MetricSection
  | errorTotal (scopes : List (ErrorLabels × Nat))
  | activeQueries (value : Nat)
deriving Repr, DecidableEq

/-- Rust `impl fmt::Display for Report` (router.rs L153-172), as the list of
metric sections written in order: the `router_error_total` section only
when the `Weak` upgrade succeeds and the lock is acquired; the
`router_active_destination_queries` gauge unconditionally after it. -/
def Report.display (r : Report) : List MetricSection :=
  (match weakUpgrade r.errorStrong r.error_total with
   | some tbl => if r.lockOk then [MetricSection.errorTotal tbl] else []
   | none => [])
  ++ [MetricSection.activeQueries r.active_destination_queries]

/-! ## Theorems checking the specification claims -/

/-- C1: the refresh delay equals 7/10 of the remaining lifetime
(`max 0 (expiry - now)`, which is Nat subtraction) clamped inclusively into
`[min_refresh, max_refresh]`; it is `min_refresh` whenever the expiry is in
the past or unset (≤ now); and, given `min_refresh ≤ max_refresh`, every
scheduled delay lies in `[min_refresh, max_refresh]`. -/
theorem refresh_clamp (c : Config) (expiry now : Nat)
    (h : c.min_refresh ≤ c.max_refresh) :
    c.refresh expiry now
      = max c.min_refresh (min c.max_refresh ((expiry - now) * 7 / 10))
    ∧ (expiry ≤ now → c.refresh expiry now = c.min_refresh)
    ∧ c.min_refresh ≤ c.refresh expiry now
    ∧ c.refresh expiry now ≤ c.max_refresh := by
  have hmain : c.refresh expiry now
      = max c.min_refresh (min c.max_refresh ((expiry - now) * 7 / 10)) := by
    unfold Config.refresh durationSince
    by_cases hle : now ≤ expiry
    · rw [if_pos hle]
      simp only [Option.map_some']
      generalize (expiry - now) * 7 / 10 = t
      split_ifs <;> omega
    · have h0 : expiry - now = 0 := by omega
      rw [if_neg hle]
      simp only [Option.map_none', h0]
      omega
  refine ⟨hmain, fun hp => ?_, by rw [hmain]; omega, by rw [hmain]; omega⟩
  have h0 : expiry - now = 0 := by omega
  rw [hmain, h0]
  omega

theorem refresh_clamp_witness :
    (Config.mk 10 100).min_refresh ≤ (Config.mk 10 100).max_refresh
    ∧ (Config.mk 10 100).refresh 50 40 = max 10 (min 100 ((50 - 40) * 7 / 10)) :=
  ⟨by decide, (refresh_clamp ⟨10, 100⟩ 50 40 (by decide)).1⟩

/-- The refresh delay for the initial (epoch) expiry is always
`min_refresh`: the epoch is never after `now`. -/
theorem refresh_epoch (c : Config) (now : Nat) :
    c.refresh 0 now = c.min_refresh := by
  unfold Config.refresh durationSince
  by_cases hn : now ≤ 0
  · have h0 : now = 0 := by omega
    subst h0
    simp only [le_refl, if_pos, Option.map_some', Nat.sub_zero, Nat.zero_mul,
      Nat.zero_div]
    split_ifs <;> omega
  · rw [if_neg hn]
    rfl

/-- C3: when a Certify attempt fails — the RPC errors, the response lacks a
convertible `valid_until`, or trust-anchor verification rejects — the
stored expiry and the published watch value are unchanged, and the daemon
loops into `Waiting` with the delay computed from the previously stored
expiry; and on the first attempt the stored expiry is the epoch, for which
the computed delay is `min_refresh`. -/
theorem certify_failure_preserves_state (c : Config) (e : StepEnv)
    (s : DaemonState) (hp : s.inner = .pending)
    (hfail : e.rpc = .err
      ∨ (∃ rsp, e.rpc = .ok rsp ∧ rsp.valid_until = none)
      ∨ (∃ rsp t, e.rpc = .ok rsp ∧ rsp.valid_until = some t
            ∧ e.certifyOk = false)) :
    (Daemon.step c e s).1 = .looped
    ∧ (Daemon.step c e s).2.expiry = s.expiry
    ∧ (Daemon.step c e s).2.crt_key = s.crt_key
    ∧ (Daemon.step c e s).2.inner
        = .waiting (e.now + c.refresh s.expiry e.now)
    ∧ DaemonState.init.expiry = 0
    ∧ (∀ t, c.refresh DaemonState.init.expiry t = c.min_refresh) := by
  obtain ⟨now, dl, tok, rpc, cok, obs⟩ := e
  obtain ⟨se, sk, si⟩ := s
  simp only at hp
  subst hp
  rcases hfail with h1 | ⟨rsp, h1, h2⟩ | ⟨rsp, t, h1, h2, h3⟩
  · simp only at h1
    subst h1
    exact ⟨rfl, rfl, rfl, rfl, rfl, fun t => refresh_epoch c t⟩
  · simp only at h1
    subst h1
    obtain ⟨lc, ic, vu⟩ := rsp
    simp only at h2
    subst h2
    exact ⟨rfl, rfl, rfl, rfl, rfl, fun t => refresh_epoch c t⟩
  · simp only at h1 h3
    subst h1
    subst h3
    obtain ⟨lc, ic, vu⟩ := rsp
    simp only at h2
    subst h2
    exact ⟨rfl, rfl, rfl, rfl, rfl, fun t => refresh_epoch c t⟩

theorem certify_failure_witness :
    ((Daemon.step ⟨10, 100⟩ ⟨7, .notReady, some [1], .err, true, true⟩
        { expiry := 3, crt_key := some 3, inner := .pending }).1 = .looped)
    ∧ (Daemon.step ⟨10, 100⟩ ⟨7, .notReady, some [1], .err, true, true⟩
        { expiry := 3, crt_key := some 3, inner := .pending }).2.expiry = 3
    ∧ (Daemon.step ⟨10, 100⟩ ⟨7, .notReady, some [1], .err, true, true⟩
        { expiry := 3, crt_key := some 3, inner := .pending }).2.crt_key
        = some 3
    ∧ (Daemon.step ⟨10, 100⟩ ⟨7, .notReady, some [1], .err, true, true⟩
        { expiry := 3, crt_key := some 3, inner := .pending }).2.inner
        = .waiting (7 + (Config.mk 10 100).refresh 3 7)
    ∧ DaemonState.init.expiry = 0
    ∧ (∀ t, (Config.mk 10 100).refresh DaemonState.init.expiry t
        = (Config.mk 10 100).min_refresh) :=
  certify_failure_preserves_state ⟨10, 100⟩
    ⟨7, .notReady, some [1], .err, true, true⟩
    { expiry := 3, crt_key := some 3, inner := .pending } rfl (Or.inl rfl)

/-- C4: the claim says a `TokenSource::load` failure in `ShouldRefresh` is
treated as a failed refresh attempt (log and re-arm the delay).  The code
instead panics via `.expect("FIXME")` (identity.rs L119): the step outcome
is a panic, not a transition to `Waiting`. -/
theorem token_load_failure_panics :
    (Daemon.step ⟨10, 100⟩ ⟨0, .notReady, none, .notReady, true, true⟩
        DaemonState.init).1 = Outcome.panicked
    ∧ ∀ d, (Daemon.step ⟨10, 100⟩ ⟨0, .notReady, none, .notReady, true, true⟩
        DaemonState.init).2.inner ≠ InnerState.waiting d := by
  exact ⟨rfl, fun d h => by cases h⟩

/-- C7: one poll-loop iteration yields `Ready(())` (normal termination)
exactly when the daemon is `Pending`, the RPC succeeded with a convertible
`valid_until`, trust-anchor verification accepted, and the watch store
failed because all observers were dropped; and in that case the stored
expiry and the published watch value are unchanged. -/
theorem daemon_done_iff (c : Config) (e : StepEnv) (s : DaemonState) :
    ((Daemon.step c e s).1 = .done ↔
      s.inner = .pending ∧ e.certifyOk = true ∧ e.hasObservers = false
      ∧ ∃ rsp t, e.rpc = .ok rsp ∧ rsp.valid_until = some t)
    ∧ ((Daemon.step c e s).1 = .done → (Daemon.step c e s).2 = s) := by
  obtain ⟨now, dl, tok, rpc, cok, obs⟩ := e
  obtain ⟨se, sk, si⟩ := s
  cases si
  · cases dl <;> simp [Daemon.step]
  · cases tok <;> simp [Daemon.step]
  · rcases rpc with _ | ⟨lc, ic, vu⟩ | _
    · simp [Daemon.step]
    · cases vu <;> cases cok <;> cases obs <;> simp [Daemon.step]
    · simp [Daemon.step]

theorem daemon_done_witness :
    (Daemon.step ⟨10, 100⟩
        ⟨0, .notReady, some [1], .ok ⟨[2], [], some 9⟩, true, false⟩
        { expiry := 0, crt_key := none, inner := .pending }).1
      = Outcome.done :=
  (daemon_done_iff ⟨10, 100⟩
      ⟨0, .notReady, some [1], .ok ⟨[2], [], some 9⟩, true, false⟩
      { expiry := 0, crt_key := none, inner := .pending }).1.mpr
    ⟨rfl, rfl, rfl, ⟨[2], [], some 9⟩, 9, rfl, rfl⟩

/-- C9: composite identities of `RequestMatch`: `All []` is true, `Any []`
is false, `Not` negates; `Method` matches exactly on method equality; and
`Path` is evaluated against the URI path only (requests with equal paths
agree on every `Path` matcher, whatever their query or method). -/
theorem request_match_identities (req req2 : Request) (m : RequestMatch)
    (method : String) (re : Regex) :
    (RequestMatch.All []).is_match req = true
    ∧ (RequestMatch.Any []).is_match req = false
    ∧ (RequestMatch.Not m).is_match req = !(m.is_match req)
    ∧ ((RequestMatch.Method method).is_match req = true ↔ req.method = method)
    ∧ (RequestMatch.Path re).is_match req = re.test req.uri.path
    ∧ (req.uri.path = req2.uri.path →
        (RequestMatch.Path re).is_match req
          = (RequestMatch.Path re).is_match req2) := by
  refine ⟨by simp [RequestMatch.is_match], by simp [RequestMatch.is_match],
    by simp [RequestMatch.is_match], ?_, by simp [RequestMatch.is_match], ?_⟩
  · simp [RequestMatch.is_match]
  · intro h
    simp [RequestMatch.is_match, h]

theorem request_match_witness :
    ((RequestMatch.Method "GET").is_match
        ⟨"GET", ⟨"/a", none⟩⟩ = true ↔ "GET" = "GET")
    ∧ ((RequestMatch.Path ⟨fun s => s == "/a"⟩).is_match ⟨"GET", ⟨"/a", none⟩⟩
        = (RequestMatch.Path ⟨fun s => s == "/a"⟩).is_match
            ⟨"PUT", ⟨"/a", some "q=1"⟩⟩) :=
  ⟨(request_match_identities ⟨"GET", ⟨"/a", none⟩⟩ ⟨"PUT", ⟨"/a", some "q=1"⟩⟩
      (RequestMatch.All []) "GET" ⟨fun s => s == "/a"⟩).2.2.2.1,
   (request_match_identities ⟨"GET", ⟨"/a", none⟩⟩ ⟨"PUT", ⟨"/a", some "q=1"⟩⟩
      (RequestMatch.All []) "GET" ⟨fun s => s == "/a"⟩).2.2.2.2.2 rfl⟩

/-- C8: equality on `Route` and its components is reference identity of
the interior shared tables: a clone is equal to the original; routes whose
label tables live in distinct allocations are never equal — in particular
two routes built independently with identical contents (`routeAlloc 1 2`
vs `routeAlloc 3 4`) are not equal; and hashing depends only on what
equality compares, so equal values hash equally. -/
theorem route_pointer_identity :
    (∀ r : Route, (r.clone).eq r = true)
    ∧ (∀ a b : Route, a.labels.arc.id ≠ b.labels.arc.id → a.eq b = false)
    ∧ (∀ a b : Route, a.eq b = true → a.hashStream = b.hashStream)
    ∧ ((routeAlloc 1 2).eq (routeAlloc 3 4) = false
        ∧ (routeAlloc 1 2).labels.arc.val = (routeAlloc 3 4).labels.arc.val
        ∧ (routeAlloc 1 2).response_classes.arc.val
            = (routeAlloc 3 4).response_classes.arc.val
        ∧ (routeAlloc 1 2).retries = (routeAlloc 3 4).retries
        ∧ (routeAlloc 1 2).timeout = (routeAlloc 3 4).timeout) := by
  refine ⟨?_, ?_, ?_, ?_, rfl, rfl, rfl, rfl⟩
  · intro r
    obtain ⟨⟨⟨la, lv⟩⟩, ⟨⟨ca, cv⟩⟩, ra, ta⟩ := r
    cases ra <;>
      simp [Route.clone, Route.eq, Labels.eq, ResponseClasses.eq,
        Retries.eq, Ptr.ptr_eq]
  · intro a b h
    have hid : (a.labels.arc.id == b.labels.arc.id) = false := by
      simpa using h
    simp [Route.eq, Labels.eq, Ptr.ptr_eq, hid]
  · intro a b h
    obtain ⟨⟨⟨la, lv⟩⟩, ⟨⟨ca, cv⟩⟩, ra, ta⟩ := a
    obtain ⟨⟨⟨lb, lv2⟩⟩, ⟨⟨cb, cv2⟩⟩, rb, tb⟩ := b
    cases ra <;> cases rb <;>
      simp_all [Route.eq, Route.hashStream, Labels.eq, ResponseClasses.eq,
        Retries.eq, Labels.hashU, ResponseClasses.hashU, Retries.hashU,
        Ptr.ptr_eq]
  · decide

theorem route_pointer_identity_witness :
    (routeAlloc 1 2).labels.arc.id ≠ (routeAlloc 3 4).labels.arc.id
    ∧ (routeAlloc 1 2).eq (routeAlloc 3 4) = false :=
  ⟨by decide,
   route_pointer_identity.2.1 (routeAlloc 1 2) (routeAlloc 3 4) (by decide)⟩

/-- The loop returns the first match in table order, else the default. -/
theorem recognizeGo_eq_find {T O : Type} (withRoute : T → Route → O)
    (t : T) (req : Request) (routes : Routes) (d : Route) :
    recognizeGo withRoute t req routes d
      = some (withRoute t
          (((routes.find? (fun p => p.1.is_match req)).map Prod.snd).getD
            d)) := by
  induction routes with
  | nil => rfl
  | cons p rest ih =>
    obtain ⟨condition, route⟩ := p
    cases hcm : condition.is_match req <;>
      simp [recognizeGo, List.find?, hcm, ih]

/-- C2: the route chosen by the recognizer is the first `(match, route)`
pair in table order whose `is_match` accepts the request (`List.find?`),
the stored default route when no pair matches, and the recognizer is
total: it returns `some` target for every request. -/
theorem recognize_first_match {T O : Type} (withRoute : T → Route → O)
    (r : Recognize T) (req : Request) :
    r.recognize withRoute req
      = some (withRoute r.target
          (((r.routes.find? (fun p => p.1.is_match req)).map Prod.snd).getD
            r.default_route))
    ∧ r.recognize withRoute req ≠ none := by
  refine ⟨recognizeGo_eq_find withRoute r.target req r.routes r.default_route,
    ?_⟩
  rw [Recognize.recognize,
    recognizeGo_eq_find withRoute r.target req r.routes r.default_route]
  exact Option.some_ne_none _

/-- One dispatch through a router whose cached services were all made by
the stack: the service used is the stack applied to the recognized target,
and that cache shape, the recognizer and the stack are preserved. -/
theorem call_spec {T O Svc : Type} [DecidableEq O]
    (withRoute : T → Route → O) (r : RtRouter T O Svc) (req : Request)
    (hinv : ∀ p ∈ r.cache, p.2 = r.stack p.1) :
    (r.call withRoute req).1
      = (r.recognize.recognize withRoute req).map r.stack
    ∧ (r.call withRoute req).2.recognize = r.recognize
    ∧ (r.call withRoute req).2.stack = r.stack
    ∧ ∀ p ∈ (r.call withRoute req).2.cache, p.2 = r.stack p.1 := by
  rcases hrec : r.recognize.recognize withRoute req with _ | tgt
  · have hc : r.call withRoute req = (none, r) := by
      simp only [RtRouter.call, hrec]
    rw [hc]
    exact ⟨rfl, rfl, rfl, hinv⟩
  · rcases hfind : r.cache.find? (fun p => decide (p.1 = tgt)) with _ | q
    · have hc : r.call withRoute req
          = (some (r.stack tgt),
             { r with cache := (tgt, r.stack tgt) :: r.cache }) := by
        simp only [RtRouter.call, hrec, hfind]
      rw [hc]
      refine ⟨rfl, rfl, rfl, ?_⟩
      intro p hp
      rcases List.mem_cons.mp hp with h | h
      · subst h; rfl
      · exact hinv p h
    · have hfs := List.find?_some
        (p := fun x : O × Svc => decide (x.1 = tgt)) hfind
      have hq : q.1 = tgt := of_decide_eq_true hfs
      have hmem : q ∈ r.cache := List.mem_of_find?_eq_some hfind
      have hc : r.call withRoute req = (some q.2, r) := by
        simp only [RtRouter.call, hrec, hfind]
      rw [hc]
      refine ⟨?_, rfl, rfl, hinv⟩
      rw [hinv q hmem, hq]
      rfl

/-- A dispatch sequence through a router with a stack-made cache uses, for
every request, the stack applied to that request's recognized target. -/
theorem callMany_spec {T O Svc : Type} [DecidableEq O]
    (withRoute : T → Route → O) (reqs : List Request) :
    ∀ r : RtRouter T O Svc, (∀ p ∈ r.cache, p.2 = r.stack p.1) →
    (r.callMany withRoute reqs).1
      = reqs.map (fun q =>
          (r.recognize.recognize withRoute q).map r.stack) := by
  induction reqs with
  | nil => intro r _; rfl
  | cons q rest ih =>
    intro r hinv
    obtain ⟨h1, h2, h3, h4⟩ := call_spec withRoute r q hinv
    have ih2 := ih (r.call withRoute q).2 (by rw [h3]; exact h4)
    rw [h2, h3] at ih2
    simp only [RtRouter.callMany]
    rw [List.map_cons, h1, ih2]

/-- C5: replacing the route table rebuilds the recognizer and the
specialized-service map from scratch: the new router's capacity is exactly
`routes.len() + 1`, its recognizer holds the new table, its map starts
empty, and every service dispatched afterwards is materialized by the
stack from a target recognized against the new table; at construction,
before any emission, the capacity is 1 over the empty table. -/
theorem update_routes_rebuilds {T O Svc : Type} [DecidableEq O]
    (withRoute : T → Route → O) (s : ProfileService T O Svc)
    (routes : Routes) (stack : O → Svc) (t : T) (d : Route)
    (g : Option (List Routes)) (reqs : List Request) :
    (s.update_routes routes).router.capacity = routes.length + 1
    ∧ (s.update_routes routes).router.cache = []
    ∧ (s.update_routes routes).router.recognize
        = ⟨s.target, routes, s.default_route⟩
    ∧ ((s.update_routes routes).router.callMany withRoute reqs).1
        = reqs.map (fun q =>
            ((Recognize.mk s.target routes s.default_route).recognize
              withRoute q).map s.stack)
    ∧ (Stack.make stack t d g : ProfileService T O Svc).router.capacity = 1
    ∧ (Stack.make stack t d g : ProfileService T O Svc).router.recognize
        = ⟨t, [], d⟩
    ∧ (Stack.make stack t d g : ProfileService T O Svc).router.cache
        = [] := by
  refine ⟨rfl, rfl, rfl, ?_, rfl, rfl, rfl⟩
  exact callMany_spec withRoute reqs _ (by intro p hp; cases hp)

/-- Folding `update_routes` over a non-empty batch of emissions leaves the
router the one built from the last emission. -/
theorem foldl_update_routes_getLast {T O Svc : Type}
    (updates : List Routes) :
    ∀ (u : Routes) (s : ProfileService T O Svc),
    updates.getLast? = some u →
    (updates.foldl (fun st r => st.update_routes r) s).router
      = (s.update_routes u).router := by
  induction updates with
  | nil => intro u s h; cases h
  | cons r rest ih =>
    intro u s h
    cases rest with
    | nil =>
      have : r = u := by
        simpa using h
      subst this
      rfl
    | cons r2 rest2 =>
      have h2 : (r2 :: rest2).getLast? = some u := by
        rwa [List.getLast?_cons_cons] at h
      rw [List.foldl_cons]
      rw [ih u (s.update_routes r) h2]
      rfl

/-- C6: `poll_ready` first drains the route stream non-blockingly — each
ready emission replaces the table, so several updates available in one
tick collapse to the last one — and then returns ready unconditionally,
consulting no inner service; with no subscription, or no ready emission,
the state is untouched. -/
theorem poll_ready_drains {T O Svc : Type} (s : ProfileService T O Svc) :
    ((s.poll_ready).2 = true)
    ∧ (s.route_stream = none → (s.poll_ready).1 = s)
    ∧ (s.route_stream = some [] → (s.poll_ready).1.router = s.router)
    ∧ (∀ updates u, s.route_stream = some updates →
        updates.getLast? = some u →
        (s.poll_ready).1.router = (s.update_routes u).router) := by
  obtain ⟨t, stk, rs, rtr, d⟩ := s
  refine ⟨?_, ?_, ?_, ?_⟩
  · cases rs <;> rfl
  · intro h
    simp only at h
    subst h
    rfl
  · intro h
    simp only at h
    subst h
    rfl
  · intro updates u h hl
    simp only at h
    subst h
    simp only [ProfileService.poll_ready]
    rw [foldl_update_routes_getLast updates u _ hl]
    rfl

theorem poll_ready_drains_witness :
    (wService.poll_ready).2 = true
    ∧ (wService.poll_ready).1.router
        = (wService.update_routes
            [(RequestMatch.All [], routeAlloc 0 0)]).router :=
  ⟨(poll_ready_drains wService).1,
   (poll_ready_drains wService).2.2.2
     [[], [(RequestMatch.All [], routeAlloc 0 0)]]
     [(RequestMatch.All [], routeAlloc 0 0)] rfl rfl⟩

/-- C10: once every strong reference to the shared error-total table (the
originating `Sensors` and all `ErrorSensor` clones) has been dropped, the
`Weak` upgrade fails and the formatted report contains no
`router_error_total` section — it is exactly the gauge section — while
the `router_active_destination_queries` gauge section is formatted in
every case. -/
theorem report_display_sections (r : Report) :
    (r.errorStrong = 0 →
      r.display = [MetricSection.activeQueries r.active_destination_queries])
    ∧ (∀ tbl, r.errorStrong = 0 →
        MetricSection.errorTotal tbl ∉ r.display)
    ∧ MetricSection.activeQueries r.active_destination_queries
        ∈ r.display := by
  obtain ⟨q, tbl0, strong, lk⟩ := r
  refine ⟨?_, ?_, ?_⟩
  · intro h
    simp only at h
    subst h
    simp [Report.display, weakUpgrade]
  · intro tbl h
    simp only at h
    subst h
    simp [Report.display, weakUpgrade]
  · by_cases h : strong = 0
    · subst h
      simp [Report.display, weakUpgrade]
    · cases lk <;> simp [Report.display, weakUpgrade, h]

theorem report_display_witness :
    (Report.mk 5 [] 0 true).display = [MetricSection.activeQueries 5] :=
  (report_display_sections ⟨5, [], 0, true⟩).1 rfl

end Linkerd
